import Mathlib

/-!
Verification of the RAINS server core against its specification.

The Go sources are shallowly embedded: pure functions become Lean functions,
interface values become sum types, fallible calls return Except or Option,
machine integers become Nat or Int, and external collaborators (the sections
package, the crypto libraries, the file system, the network) are either
modelled from the specification or abstracted as explicit parameters.
-/

namespace Rains

/-! ## Section comparison keys (message sorting model)

The sections package implementing per-kind CompareTo and the per-section
Sort methods is not under src; only the dispatching RainsMessage.Sort is.
The parts below that are modelled from the spec say so in their doc comment.
-/

/-- Modelled from the spec: spec section 4.1 defines the per-kind CompareTo as
a lexicographic comparison on the tuple of natural keys of each section
(for example (context, subjectZone, subjectName, content-bytes) for an
assertion).  The sections package holding those tuples is not under src, so
the natural-key tuple of a section is abstracted as a list of integers. -/
abbrev SectionKey := List Int

/-- Modelled from the spec: the lexicographic comparison on natural-key
tuples backing every per-kind CompareTo (spec section 4.1).  Returns a
negative, zero or positive result in the style of the Go CompareTo methods. -/
def compareKeys : SectionKey → SectionKey → Int
  | [], [] => 0
  | [], _ :: _ => -1
  | _ :: _, [] => 1
  | a :: as, b :: bs => if a < b then -1 else if b < a then 1 else compareKeys as bs

/-- Boolean form of a nonpositive CompareTo result, the order used by the
sort.Slice calls in RainsMessage.Sort (less i j := CompareTo i j < 0). -/
def keyLE (a b : SectionKey) : Bool := decide (compareKeys a b ≤ 0)

/-- MessageSection models the Go MessageSection interface: one of the eight
known section variants, or any other implementation of the interface
(the default branch of the type switch in RainsMessage.Sort). -/
inductive MessageSection
  | assertion (key : SectionKey)
  | shard (key : SectionKey)
  | zone (key : SectionKey)
  | query (key : SectionKey)
  | notification (key : SectionKey)
  | addressAssertion (key : SectionKey)
  | addressZone (key : SectionKey)
  | addressQuery (key : SectionKey)
  | unsupported (key : SectionKey)
  deriving DecidableEq

/-- The abstracted natural-key tuple carried by a section. -/
def secKey : MessageSection → SectionKey
  | .assertion k => k
  | .shard k => k
  | .zone k => k
  | .query k => k
  | .notification k => k
  | .addressAssertion k => k
  | .addressZone k => k
  | .addressQuery k => k
  | .unsupported k => k

/-- Modelled from the spec: sec.Sort() sorts the sections contained inside
sec (spec section 4.1); its per-kind implementations are not under src.  It
is abstracted as an arbitrary transformation of the comparison key, applied
to every variant alike and supplied as a parameter, so the theorems below
hold for every such implementation. -/
def sortInner (inner : SectionKey → SectionKey) : MessageSection → MessageSection
  | .assertion k => .assertion (inner k)
  | .shard k => .shard (inner k)
  | .zone k => .zone (inner k)
  | .query k => .query (inner k)
  | .notification k => .notification (inner k)
  | .addressAssertion k => .addressAssertion (inner k)
  | .addressZone k => .addressZone (inner k)
  | .addressQuery k => .addressQuery (inner k)
  | .unsupported k => .unsupported (inner k)

/-- Case *AssertionSection of the type switch in RainsMessage.Sort. -/
def getAssertion : MessageSection → Option SectionKey
  | .assertion k => some k
  | _ => none

/-- Case *ShardSection of the type switch in RainsMessage.Sort. -/
def getShard : MessageSection → Option SectionKey
  | .shard k => some k
  | _ => none

/-- Case *ZoneSection of the type switch in RainsMessage.Sort. -/
def getZone : MessageSection → Option SectionKey
  | .zone k => some k
  | _ => none

/-- Case *QuerySection of the type switch in RainsMessage.Sort. -/
def getQuery : MessageSection → Option SectionKey
  | .query k => some k
  | _ => none

/-- Case *NotificationSection of the type switch in RainsMessage.Sort. -/
def getNotification : MessageSection → Option SectionKey
  | .notification k => some k
  | _ => none

/-- Case *AddressAssertionSection of the type switch in RainsMessage.Sort. -/
def getAddressAssertion : MessageSection → Option SectionKey
  | .addressAssertion k => some k
  | _ => none

/-- Case *AddressZoneSection of the type switch in RainsMessage.Sort. -/
def getAddressZone : MessageSection → Option SectionKey
  | .addressZone k => some k
  | _ => none

/-- Case *AddressQuerySection of the type switch in RainsMessage.Sort. -/
def getAddressQuery : MessageSection → Option SectionKey
  | .addressQuery k => some k
  | _ => none

/-- A section is of one of the eight known variants (all but the default
branch of the type switch, which only logs a warning and drops the section). -/
def isKnownSection : MessageSection → Bool
  | .unsupported _ => false
  | _ => true

/-- RainsMessage contains the data of a message (Token, Content, Signatures,
Capabilities); the fields other than Content are irrelevant to sorting and
kept abstract. -/
structure RainsMessage where
  Token : Nat
  Content : List MessageSection
  Signatures : List Nat
  Capabilities : List String
  deriving DecidableEq

/-- The body of RainsMessage.Sort acting on the section list: the sections
are partitioned by the type switch into eight slices, each slice is sorted
by sort.Slice with CompareTo < 0, and the content is rebuilt by appending
the slices in the order addressQueries, addressZones, addressAssertions,
assertions, shards, zones, queries, notifications.  The single
range-and-switch pass of the Go code is rendered as one order-preserving
filterMap per case; the typed Go slices ([]*AssertionSection and so on) are
the key lists, and appending a slice re-wraps its elements in the
corresponding variant. -/
def sortContent (content : List MessageSection) : List MessageSection :=
  let assertions := (content.filterMap getAssertion).mergeSort keyLE
  let shards := (content.filterMap getShard).mergeSort keyLE
  let zones := (content.filterMap getZone).mergeSort keyLE
  let queries := (content.filterMap getQuery).mergeSort keyLE
  let addressAssertions := (content.filterMap getAddressAssertion).mergeSort keyLE
  let addressZones := (content.filterMap getAddressZone).mergeSort keyLE
  let addressQueries := (content.filterMap getAddressQuery).mergeSort keyLE
  let notifications := (content.filterMap getNotification).mergeSort keyLE
  addressQueries.map MessageSection.addressQuery ++
    addressZones.map MessageSection.addressZone ++
    addressAssertions.map MessageSection.addressAssertion ++
    assertions.map MessageSection.assertion ++
    shards.map MessageSection.shard ++
    zones.map MessageSection.zone ++
    queries.map MessageSection.query ++
    notifications.map MessageSection.notification

/-- RainsMessage.Sort from the source: each section is first sorted
internally (sec.Sort(), the inner parameter), then Content is rebuilt by
sortContent. -/
def RainsMessage.Sort (inner : SectionKey → SectionKey) (m : RainsMessage) : RainsMessage :=
  { m with Content := sortContent (m.Content.map (sortInner inner)) }

/-- The position of each section kind in the output order of
RainsMessage.Sort (the claim's enum order). -/
def kindRank : MessageSection → Nat
  | .addressQuery _ => 0
  | .addressZone _ => 1
  | .addressAssertion _ => 2
  | .assertion _ => 3
  | .shard _ => 4
  | .zone _ => 5
  | .query _ => 6
  | .notification _ => 7
  | .unsupported _ => 8

/-- The order RainsMessage.Sort is claimed to establish on adjacent
sections: strictly increasing kind rank, or equal kinds with a
nondecreasing CompareTo comparison. -/
def sortedR (a b : MessageSection) : Prop :=
  kindRank a < kindRank b ∨
    (kindRank a = kindRank b ∧ compareKeys (secKey a) (secKey b) ≤ 0)

/-- A concrete message used by witnesses. -/
def exampleMessage : RainsMessage where
  Token := 0
  Content :=
    [MessageSection.zone [3], MessageSection.assertion [2], MessageSection.assertion [1],
     MessageSection.unsupported [9], MessageSection.query [4], MessageSection.addressZone [0]]
  Signatures := []
  Capabilities := []

/-! ## Signature engine (Signature.SignData / Signature.VerifySignature)

The Go code stores keys and signature payloads as interface values and
selects the primitive by the numeric algorithm type.  Interface values
become sum types; a failed checked type assertion is the fallthrough
constructor, and the one unchecked type assertion in the source
(sig.Data.([]byte) in the Ed25519 branch of VerifySignature) becomes a
run-time panic value.
-/

/-- Ed25519 algorithm code of SignatureAlgorithmType.  Modelled from the
spec: the numeric values of the enum are not under src; the claims only
need the four codes to be distinct. -/
def Ed25519Alg : Nat := 1

/-- Ed448 algorithm code of SignatureAlgorithmType (reserved). -/
def Ed448Alg : Nat := 2

/-- ECDSA-P256 algorithm code of SignatureAlgorithmType. -/
def Ecdsa256Alg : Nat := 3

/-- ECDSA-P384 algorithm code of SignatureAlgorithmType. -/
def Ecdsa384Alg : Nat := 4

/-- The dynamic type of the privateKey interface argument: an
ed25519.PrivateKey, a *ecdsa.PrivateKey (both curves share one Go type), or
any other type (on which every checked type assertion fails).  Key material
is opaque to the embedding and abstracted as a Nat identifier. -/
inductive PrivateKeyVal
  | ed25519Priv (k : Nat)
  | ecdsaPriv (k : Nat)
  | otherPriv (tag : Nat)
  deriving DecidableEq

/-- The dynamic type of the publicKey interface argument. -/
inductive PublicKeyVal
  | ed25519Pub (k : Nat)
  | ecdsaPub (k : Nat)
  | otherPub (tag : Nat)
  deriving DecidableEq

/-- The dynamic type of the sig.Data interface field: a []byte (Ed25519
signatures), a []*big.Int (the ECDSA (r, s) pair), or any other type. -/
inductive SigDataVal
  | byteSlice (bs : List Nat)
  | bigIntSlice (l : List Int)
  | otherData (tag : Nat)
  deriving DecidableEq

/-- Signature on a Rains message or section, as in the source: KeySpace,
Algorithm, ValidSince, ValidUntil and the opaque Data field (nil = none). -/
structure Signature where
  KeySpace : Int
  Algorithm : Nat
  ValidSince : Int
  ValidUntil : Int
  Data : Option SigDataVal
  deriving DecidableEq

/-- GetSignatureMetaData returns the signature metadata in signable format:
fmt.Sprintf of KeySpace, Algorithm, ValidSince, ValidUntil separated by
single spaces. -/
def Signature.GetSignatureMetaData (sig : Signature) : String :=
  toString sig.KeySpace ++ " " ++ toString sig.Algorithm ++ " " ++
    toString sig.ValidSince ++ " " ++ toString sig.ValidUntil

/-- Modelled from the spec: the cryptographic primitives
(golang.org/x/crypto/ed25519 and crypto/ecdsa combined with the SHA-256 or
SHA-384 hashing of the data done in the source) are external libraries, so
they are abstracted as parameters.  ECDSA signing reads from a randomness
source (rand.Reader) and may fail, hence the extra Nat argument and the
Except result. -/
structure CryptoPrimitives where
  ed25519Sign : Nat → String → List Nat
  ed25519Verify : Nat → String → List Nat → Bool
  ecdsaSign256 : Nat → Nat → String → Except String (Int × Int)
  ecdsaVerify256 : Nat → String → Int → Int → Bool
  ecdsaSign384 : Nat → Nat → String → Except String (Int × Int)
  ecdsaVerify384 : Nat → String → Int → Int → Bool

/-- SignData adds the signature metadata to the encoding, signs the result
with privateKey according to sig.Algorithm and returns sig with the Data
field replaced by the generated signature; every error path of the source
returns the corresponding error. -/
def Signature.SignData (P : CryptoPrimitives) (rnd : Nat) (sig : Signature)
    (privateKey : Option PrivateKeyVal) (encoding : String) : Except String Signature :=
  match privateKey with
  | none => Except.error "privateKey is nil"
  | some pkey =>
    let data := encoding ++ sig.GetSignatureMetaData
    if sig.Algorithm = Ed25519Alg then
      match pkey with
      | .ed25519Priv k =>
        Except.ok { sig with Data := some (SigDataVal.byteSlice (P.ed25519Sign k data)) }
      | _ => Except.error "could not assert type ed25519.PrivateKey"
    else if sig.Algorithm = Ed448Alg then
      Except.error "ed448 not yet supported in SignData()"
    else if sig.Algorithm = Ecdsa256Alg then
      match pkey with
      | .ecdsaPriv k =>
        match P.ecdsaSign256 rnd k data with
        | Except.error e => Except.error e
        | Except.ok (r, s) =>
          Except.ok { sig with Data := some (SigDataVal.bigIntSlice [r, s]) }
      | _ => Except.error "could not assert type ecdsa.PrivateKey"
    else if sig.Algorithm = Ecdsa384Alg then
      match pkey with
      | .ecdsaPriv k =>
        match P.ecdsaSign384 rnd k data with
        | Except.error e => Except.error e
        | Except.ok (r, s) =>
          Except.ok { sig with Data := some (SigDataVal.bigIntSlice [r, s]) }
      | _ => Except.error "could not assert type ecdsa.PrivateKey"
    else
      Except.error "signature algorithm type not supported"

/-- A Go run-time panic reachable in the embedded code. -/
inductive GoPanic
  | interfaceConversion
  | nilPointerDereference
  deriving DecidableEq

/-- VerifySignature adds the signature metadata to the encoding and checks
sig.Data against it under publicKey.  All type mismatches detected by a
checked assertion return false; the Ed25519 branch converts sig.Data with
an unchecked assertion, which panics when Data is not a []byte. -/
def Signature.VerifySignature (P : CryptoPrimitives) (sig : Signature)
    (publicKey : Option PublicKeyVal) (encoding : String) : Except GoPanic Bool :=
  match sig.Data with
  | none => Except.ok false
  | some sigData =>
    match publicKey with
    | none => Except.ok false
    | some pkey =>
      let data := encoding ++ sig.GetSignatureMetaData
      if sig.Algorithm = Ed25519Alg then
        match pkey with
        | .ed25519Pub k =>
          match sigData with
          | .byteSlice bs => Except.ok (P.ed25519Verify k data bs)
          | _ => Except.error GoPanic.interfaceConversion
        | _ => Except.ok false
      else if sig.Algorithm = Ed448Alg then
        Except.ok false
      else if sig.Algorithm = Ecdsa256Alg then
        match pkey with
        | .ecdsaPub k =>
          match sigData with
          | .bigIntSlice [r, s] => Except.ok (P.ecdsaVerify256 k data r s)
          | _ => Except.ok false
        | _ => Except.ok false
      else if sig.Algorithm = Ecdsa384Alg then
        match pkey with
        | .ecdsaPub k =>
          match sigData with
          | .bigIntSlice [r, s] => Except.ok (P.ecdsaVerify384 k data r s)
          | _ => Except.ok false
        | _ => Except.ok false
      else
        Except.ok false

/-- A public and a private key form a keypair matching an algorithm when
they carry the Go types that algorithm asserts and the underlying primitive
verifies what it signs.  No key type matches Ed448, whose SignData branch
fails before inspecting the key. -/
def IsKeypair (P : CryptoPrimitives) (alg : Nat) (pub : PublicKeyVal)
    (priv : PrivateKeyVal) : Prop :=
  (alg = Ed25519Alg ∧ ∃ kp ks, pub = PublicKeyVal.ed25519Pub kp ∧
      priv = PrivateKeyVal.ed25519Priv ks ∧
      ∀ msg, P.ed25519Verify kp msg (P.ed25519Sign ks msg) = true) ∨
  (alg = Ecdsa256Alg ∧ ∃ kp ks, pub = PublicKeyVal.ecdsaPub kp ∧
      priv = PrivateKeyVal.ecdsaPriv ks ∧
      ∀ rnd msg, ∃ r s, P.ecdsaSign256 rnd ks msg = Except.ok (r, s) ∧
        P.ecdsaVerify256 kp msg r s = true) ∨
  (alg = Ecdsa384Alg ∧ ∃ kp ks, pub = PublicKeyVal.ecdsaPub kp ∧
      priv = PrivateKeyVal.ecdsaPriv ks ∧
      ∀ rnd msg, ∃ r s, P.ecdsaSign384 rnd ks msg = Except.ok (r, s) ∧
        P.ecdsaVerify384 kp msg r s = true)

/-- A concrete instance of the abstract crypto primitives, used to exhibit
satisfiable hypotheses in witnesses: signing tags the message with the key
identifier and verification checks the tag. -/
def trivialPrimitives : CryptoPrimitives where
  ed25519Sign := fun k _ => [k]
  ed25519Verify := fun k _ bs => bs = [k]
  ecdsaSign256 := fun _ k _ => Except.ok (Int.ofNat k, 0)
  ecdsaVerify256 := fun k _ r s => r = Int.ofNat k ∧ s = 0
  ecdsaSign384 := fun _ k _ => Except.ok (Int.ofNat k, 1)
  ecdsaVerify384 := fun k _ r s => r = Int.ofNat k ∧ s = 1

/-! ## Section validity update (util.UpdateSectionValidity) -/

/-- The dynamic type of a sections.MessageSectionWithSig value, as
distinguished by the type switch of UpdateSectionValidity: one of the five
supported section kinds, or any other implementation of the interface
(the default branch, which only logs a warning). -/
inductive SigSectionKind
  | assertionKind
  | shardKind
  | zoneKind
  | addressAssertionKind
  | addressZoneKind
  | otherKind
  deriving DecidableEq

/-- A signable section as far as UpdateSectionValidity observes it: its
dynamic kind and its validity window.  Times and durations are Int values
(Unix seconds and a duration in the same unit). -/
structure SigSection where
  kind : SigSectionKind
  validSince : Int
  validUntil : Int
  deriving DecidableEq

/-- MaxCacheValidity defines the maximum duration each section kind
containing signatures can be valid, starting from time.Now(). -/
structure MaxCacheValidity where
  AssertionValidity : Int
  ShardValidity : Int
  ZoneValidity : Int
  AddressAssertionValidity : Int
  AddressZoneValidity : Int
  deriving DecidableEq

/-- The per-kind maximum validity selected by the type switch of
UpdateSectionValidity (arbitrary for the unreachable default branch). -/
def maxValidityFor (maxVal : MaxCacheValidity) : SigSectionKind → Int
  | .assertionKind => maxVal.AssertionValidity
  | .shardKind => maxVal.ShardValidity
  | .zoneKind => maxVal.ZoneValidity
  | .addressAssertionKind => maxVal.AddressAssertionValidity
  | .addressZoneKind => maxVal.AddressZoneValidity
  | .otherKind => 0

/-- Modelled from the spec: sec.UpdateValidity(validSince, validUntil,
maxValidity), implemented by the sections package which is not under src.
Spec section 3 (Invariants): the section's effective validity is the given
window, further capped at now + maxValidity for the section's kind; the cap
applies to both ends of the window. -/
def SigSection.UpdateValidity (now : Int) (sec : SigSection)
    (validSince validUntil maxValidity : Int) : SigSection :=
  { sec with
      validSince := min validSince (now + maxValidity),
      validUntil := min validUntil (now + maxValidity) }

/-- UpdateSectionValidity updates the validity of the section according to
the signature validity and the publicKey validity used to verify this
signature.  The nil receiver check becomes an Option; the function returns
the updated section (the Go code mutates it through the interface). -/
def UpdateSectionValidity (now : Int) (sec : Option SigSection)
    (pkeyValidSince pkeyValidUntil sigValidSince sigValidUntil : Int)
    (maxVal : MaxCacheValidity) : Option SigSection :=
  match sec with
  | none => none
  | some s =>
    match s.kind with
    | .otherKind => some s
    | k =>
      let maxValidity := maxValidityFor maxVal k
      if pkeyValidSince < sigValidSince then
        if pkeyValidUntil < sigValidUntil then
          some (s.UpdateValidity now sigValidSince pkeyValidUntil maxValidity)
        else
          some (s.UpdateValidity now sigValidSince sigValidUntil maxValidity)
      else
        if pkeyValidUntil < sigValidUntil then
          some (s.UpdateValidity now pkeyValidSince pkeyValidUntil maxValidity)
        else
          some (s.UpdateValidity now pkeyValidSince sigValidUntil maxValidity)

/-! ## Switchboard send path (sendTo / createConnection)

Connections, the connection cache and the TLS dialer are external state and
are abstracted as an environment indexed by the attempt number (the cache
contents can change between attempts because failed connections are closed
and removed, and fresh ones added).  The model returns the outcome together
with the total number of milliseconds slept in time.Sleep calls.
-/

/-- The environment sendTo interacts with, per attempt: the connection
cache lookup (connCache.GetConnection), the TLS dial
(createConnection, which either yields a new connection or fails), and the
per-connection outcome of writer.Marshal. -/
structure SendEnv where
  cachedConns : Nat → Option (List Nat)
  dial : Nat → Except String Nat
  writeOk : Nat → Nat → Bool

/-- The error sendTo returns once no retries are left. -/
def noRetriesError : String := "Was not able to send the mesage. No retries left"

/-- The connections available in one attempt of sendTo: the cached ones if
the cache lookup succeeds, otherwise the single freshly dialed connection;
a dial failure is returned to the caller at once (the source returns err
before any retry logic). -/
def availableConns (env : SendEnv) (attempt : Nat) : Except String (List Nat) :=
  match env.cachedConns attempt with
  | some conns => Except.ok conns
  | none =>
    match env.dial attempt with
    | Except.error e => Except.error e
    | Except.ok conn => Except.ok [conn]

/-- sendTo sends the message to the receiver: it obtains connections (from
the cache, else by dialing), tries to write on each in turn, and on total
write failure sleeps backoffMilliSeconds and retries with the backoff
doubled and retries decremented, failing with noRetriesError at zero.  The
result is paired with the total milliseconds slept. -/
def sendTo (env : SendEnv) (attempt retries backoffMilliSeconds : Nat) :
    Except String Unit × Nat :=
  match availableConns env attempt with
  | Except.error e => (Except.error e, 0)
  | Except.ok conns =>
    if conns.any (fun conn => env.writeOk attempt conn) then
      (Except.ok (), 0)
    else
      match retries with
      | 0 => (Except.error noRetriesError, 0)
      | r + 1 =>
        let p := sendTo env (attempt + 1) r (2 * backoffMilliSeconds)
        (p.1, backoffMilliSeconds + p.2)

/-- An environment whose connection cache is empty and whose TLS dial
always fails, as in the retry-then-fail scenario of the claim. -/
def dialFailEnv : SendEnv where
  cachedConns := fun _ => none
  dial := fun _ => Except.error "dial tcp: connection refused"
  writeOk := fun _ _ => false

/-- An environment with one cached connection on which every write fails,
the situation in which the retry loop of sendTo actually runs. -/
def writeFailEnv : SendEnv where
  cachedConns := fun _ => some [7]
  dial := fun _ => Except.error "dial tcp: connection refused"
  writeOk := fun _ _ => false

/-! ## util.Save -/

/-- The file-system and gob-encoding effects of util.Save, abstracted:
os.Create yields a file handle or an error, and gob Encode on that handle
may report an error. -/
structure GobEnv where
  create : String → Except String Nat
  encode : Nat → Nat → Option String

/-- Save stores the object to the file located at the specified path, gob
encoded.  The source calls encoder.Encode(object) without inspecting its
result and returns only the error of os.Create. -/
def Save (env : GobEnv) (path : String) (obj : Nat) : Option String :=
  match env.create path with
  | Except.error e => some e
  | Except.ok file =>
    let _ := env.encode file obj
    none

/-- An environment whose file creation succeeds and whose gob encoding
always fails. -/
def encodeFailEnv : GobEnv where
  create := fun _ => Except.ok 1
  encode := fun _ _ => some "gob: cannot encode value"

/-! ## SHA-256 and the capability hash (initOwnCapabilities)

initOwnCapabilities is in src; the SHA-256 primitive it is specified to
use (crypto/sha256) is an external library and is modelled from the spec
below, following FIPS 180-4.  Words are Nat values reduced modulo 2^32.
-/

/-- A Nat truncated to a 32-bit word. -/
def w32 (n : Nat) : Nat := n % 4294967296

/-- Right rotation of a 32-bit word by n bits. -/
def rotr32 (n x : Nat) : Nat := w32 ((x >>> n) ||| (x <<< (32 - n)))

/-- The Ch function of FIPS 180-4 (bitwise complement written as xor with
the 32-bit all-ones mask). -/
def sha256Ch (x y z : Nat) : Nat := (x &&& y) ^^^ ((x ^^^ 4294967295) &&& z)

/-- The Maj function of FIPS 180-4. -/
def sha256Maj (x y z : Nat) : Nat := (x &&& y) ^^^ (x &&& z) ^^^ (y &&& z)

/-- The big Sigma0 function of FIPS 180-4. -/
def sha256S0 (x : Nat) : Nat := rotr32 2 x ^^^ rotr32 13 x ^^^ rotr32 22 x

/-- The big Sigma1 function of FIPS 180-4. -/
def sha256S1 (x : Nat) : Nat := rotr32 6 x ^^^ rotr32 11 x ^^^ rotr32 25 x

/-- The small sigma0 function of FIPS 180-4. -/
def sha256s0 (x : Nat) : Nat := rotr32 7 x ^^^ rotr32 18 x ^^^ (x >>> 3)

/-- The small sigma1 function of FIPS 180-4. -/
def sha256s1 (x : Nat) : Nat := rotr32 17 x ^^^ rotr32 19 x ^^^ (x >>> 10)

/-- The 64 round constants of SHA-256. -/
def sha256K : List Nat :=
  [1116352408, 1899447441, 3049323471, 3921009573, 961987163, 1508970993,
   2453635748, 2870763221, 3624381080, 310598401, 607225278, 1426881987,
   1925078388, 2162078206, 2614888103, 3248222580, 3835390401, 4022224774,
   264347078, 604807628, 770255983, 1249150122, 1555081692, 1996064986,
   2554220882, 2821834349, 2952996808, 3210313671, 3336571891, 3584528711,
   113926993, 338241895, 666307205, 773529912, 1294757372, 1396182291,
   1695183700, 1986661051, 2177026350, 2456956037, 2730485921, 2820302411,
   3259730800, 3345764771, 3516065817, 3600352804, 4094571909, 275423344,
   430227734, 506948616, 659060556, 883997877, 958139571, 1322822218,
   1537002063, 1747873779, 1955562222, 2024104815, 2227730452, 2361852424,
   2428436474, 2756734187, 3204031479, 3329325298]

/-- The initial hash value of SHA-256. -/
def sha256H0 : List Nat :=
  [1779033703, 3144134277, 1013904242, 2773480762, 1359893119, 2600822924,
   528734635, 1541459225]

/-- Big-endian interpretation of four bytes as a 32-bit word. -/
def word32OfBytes : List Nat → Nat
  | [a, b, c, d] => ((a * 256 + b) * 256 + c) * 256 + d
  | _ => 0

/-- Splits a byte list into the 16 big-endian words of one 512-bit block
(the input is assumed to have length 64). -/
def blockWords : List Nat → List Nat
  | [] => []
  | a :: b :: c :: d :: rest => word32OfBytes [a, b, c, d] :: blockWords rest
  | _ => []

/-- Extends the 16-word message schedule to the given total number of
words. -/
def sha256Extend (w : List Nat) (total : Nat) : List Nat :=
  match total with
  | 0 => w
  | t + 1 =>
    if w.length < 16 ∨ total ≤ w.length then w
    else
      let w2 := sha256Extend w t
      let n := w2.length
      w2 ++ [w32 (sha256s1 (w2.getD (n - 2) 0) + w2.getD (n - 7) 0 +
        sha256s0 (w2.getD (n - 15) 0) + w2.getD (n - 16) 0)]

/-- One round of the SHA-256 compression function: state (a,b,c,d,e,f,g,h)
updated with round constant k and schedule word w. -/
def sha256Round (st : List Nat) (k w : Nat) : List Nat :=
  match st with
  | [a, b, c, d, e, f, g, h] =>
    let t1 := w32 (h + sha256S1 e + sha256Ch e f g + k + w)
    let t2 := w32 (sha256S0 a + sha256Maj a b c)
    [w32 (t1 + t2), a, b, c, w32 (d + t1), e, f, g]
  | st => st

/-- Compresses one 64-byte block into the running hash value. -/
def sha256Block (h : List Nat) (block : List Nat) : List Nat :=
  let w := sha256Extend (blockWords block) 64
  let st := (List.zip sha256K w).foldl (fun st kw => sha256Round st kw.1 kw.2) h
  List.zipWith (fun x y => w32 (x + y)) h st

/-- Folds sha256Block over the 64-byte blocks of the padded message; the
block count is passed as structural fuel. -/
def sha256Loop (blocks : Nat) (h msg : List Nat) : List Nat :=
  match blocks with
  | 0 => h
  | b + 1 => sha256Loop b (sha256Block h (msg.take 64)) (msg.drop 64)

/-- The big-endian 8-byte encoding of a Nat. -/
def bytes8 (n : Nat) : List Nat :=
  [w32 (n >>> 56) % 256, (n >>> 48) % 256, (n >>> 40) % 256, (n >>> 32) % 256,
   (n >>> 24) % 256, (n >>> 16) % 256, (n >>> 8) % 256, n % 256]

/-- SHA-256 padding: a 0x80 byte, zeros to 56 mod 64, and the bit length in
8 big-endian bytes. -/
def sha256Pad (msg : List Nat) : List Nat :=
  let len := msg.length
  let zeros := (64 + 55 - len % 64) % 64
  msg ++ 128 :: List.replicate zeros 0 ++ bytes8 (8 * len)

/-- The big-endian 4-byte decomposition of a 32-bit word. -/
def bytes4 (n : Nat) : List Nat :=
  [(n >>> 24) % 256, (n >>> 16) % 256, (n >>> 8) % 256, n % 256]

/-- SHA-256 of a byte list, as 32 bytes. -/
def sha256 (msg : List Nat) : List Nat :=
  let padded := sha256Pad msg
  (sha256Loop (padded.length / 64) sha256H0 padded).flatMap bytes4

/-- The lowercase hexadecimal digit of a value below 16. -/
def hexDigit (n : Nat) : Char :=
  if n < 10 then Char.ofNat (48 + n) else Char.ofNat (87 + n)

/-- Lowercase hexadecimal encoding of a byte list, as in hex.EncodeToString. -/
def hexEncode (bs : List Nat) : String :=
  ⟨bs.flatMap (fun b => [hexDigit (b / 16), hexDigit (b % 16)])⟩

/-- The bytes of a string; capability URNs are ASCII, for which the Unicode
code points are the UTF-8 bytes. -/
def strBytes (s : String) : List Nat := s.data.map Char.toNat

/-- The hex-encoded SHA-256 hash of a string. -/
def sha256Hex (s : String) : String := hexEncode (sha256 (strBytes s))

/-- initOwnCapabilities from the source: the first component is the
hard-coded capability hash from the draft (the source's TODO defers
computing it until CBOR serialization exists), the second the
space-joined string representation of the capability list. -/
def initOwnCapabilities (capabilities : List String) : String × String :=
  ("e5365a09be554ae55b855f15264dbc837b04f5831daeb321359e18cdabab5745",
   String.intercalate " " capabilities)

/-- Inserts a string into a lexicographically sorted list of strings. -/
def insertString (s : String) : List String → List String
  | [] => [s]
  | t :: ts => if s ≤ t then s :: t :: ts else t :: insertString s ts

/-- Lexicographic insertion sort of a list of strings. -/
def sortStrings : List String → List String
  | [] => []
  | s :: ss => insertString s (sortStrings ss)

/-- Modelled from the spec: the capability hash the specification
describes, namely the hex-encoded SHA-256 hash of the lexicographically
sorted capability list, serialized the way this code base represents a
capability list as a string (space-joined, as in the second component of
initOwnCapabilities). -/
def specCapabilityHash (capabilities : List String) : String :=
  sha256Hex (String.intercalate " " (sortStrings capabilities))

/-! ## Server constructor (rainsd.New)

The Go constructor has the named return values (server *Server, err error):
server starts as the nil pointer and the function body assigns to fields of
*server without ever allocating a Server.  Writing a field through a nil
pointer is a run-time panic, modelled with GoPanic.nilPointerDereference.
External calls (config loading, certificate loading, key loading, channel
and cache construction) are abstracted as an environment; everything past
the first field write is dead code but is embedded nonetheless.
-/

/-- The configuration fields of rainsdConfig that New reads. -/
structure RainsdConfig where
  ContextAuthority : List String
  ZoneAuthority : List String
  TLSCertificateFile : String
  TLSPrivateKeyFile : String
  RootZonePublicKeyPath : String
  Capabilities : List String
  PrioBufferSize : Nat
  NormalBufferSize : Nat
  NotificationBufferSize : Nat
  PrioWorkerCount : Nat
  NormalWorkerCount : Nat
  NotificationWorkerCount : Nat

/-- The input queues of the server; channels are opaque handles. -/
structure InputQueues where
  Prio : Nat
  Normal : Nat
  Notify : Nat
  PrioW : Nat
  NormalW : Nat
  NotifyW : Nat

/-- A rainsd server instance; fields New never reads are opaque handles. -/
structure Server where
  config : RainsdConfig
  authority : List ((String × String) × Bool)
  certPool : Nat
  tlsCert : Nat
  capabilityHash : String
  capabilityList : String
  shutdown : Nat
  queues : InputQueues
  caches : Nat

/-- The external calls New performs, abstracted: loadConfig returns a
configuration and a possible error (both, as in Go), loadTLSCertificate
returns a pool, a certificate and a possible error, loadRootZonePublicKey
a possible error, and makeChan and initCaches allocate opaque handles. -/
structure NewEnv where
  loadConfig : RainsdConfig × Option String
  loadTLSCertificate : String → String → Nat × Nat × Option String
  loadRootZonePublicKey : String → Option String
  makeChan : Nat → Nat
  initCaches : RainsdConfig → Nat

/-- The authority map built by New: for i, context := range ContextAuthority,
authority[zoneContext{Zone: ZoneAuthority[i], Context: context}] = true. -/
def mkAuthority (config : RainsdConfig) : List ((String × String) × Bool) :=
  config.ContextAuthority.mapIdx
    (fun i context => ((config.ZoneAuthority.getD i "", context), true))

/-- New returns a pointer to a newly created rainsd server instance with
the given config, or an error; the result pairs the two named return
values, and a GoPanic error models a run-time panic.  The named return
server starts as the nil pointer (none) and the first statement writes
server.config through it. -/
def New (env : NewEnv) : Except GoPanic (Option Server × Option String) :=
  let server : Option Server := none
  match server with
  | none => Except.error GoPanic.nilPointerDereference
  | some sv =>
    let cfg := env.loadConfig.1
    let cfgErr := env.loadConfig.2
    let sv := { sv with config := cfg }
    if cfgErr.isSome then Except.ok (none, cfgErr) else
    let sv := { sv with authority := mkAuthority sv.config }
    match env.loadTLSCertificate sv.config.TLSCertificateFile sv.config.TLSPrivateKeyFile with
    | (_, _, some e) => Except.ok (none, some e)
    | (pool, cert, none) =>
      let sv := { sv with certPool := pool, tlsCert := cert }
      let caps := initOwnCapabilities sv.config.Capabilities
      let sv := { sv with capabilityHash := caps.1, capabilityList := caps.2 }
      match env.loadRootZonePublicKey sv.config.RootZonePublicKeyPath with
      | some e => Except.ok (none, some e)
      | none =>
        let sv := { sv with
          shutdown := env.makeChan 0,
          queues :=
            { Prio := env.makeChan sv.config.PrioBufferSize,
              Normal := env.makeChan sv.config.NormalBufferSize,
              Notify := env.makeChan sv.config.NotificationBufferSize,
              PrioW := env.makeChan sv.config.PrioWorkerCount,
              NormalW := env.makeChan sv.config.NormalWorkerCount,
              NotifyW := env.makeChan sv.config.NotificationWorkerCount },
          caches := env.initCaches sv.config }
        match env.loadRootZonePublicKey sv.config.RootZonePublicKeyPath with
        | some e => Except.ok (none, some e)
        | none => Except.ok (some sv, none)

/-- Decidable equality of Except results, used to evaluate the send model
on concrete inputs. -/
instance {ε α : Type} [DecidableEq ε] [DecidableEq α] : DecidableEq (Except ε α) :=
  fun a b =>
    match a, b with
    | Except.error e1, Except.error e2 =>
      if h : e1 = e2 then isTrue (by rw [h]) else isFalse (by intro hc; cases hc; exact h rfl)
    | Except.error _, Except.ok _ => isFalse (by intro hc; cases hc)
    | Except.ok _, Except.error _ => isFalse (by intro hc; cases hc)
    | Except.ok v1, Except.ok v2 =>
      if h : v1 = v2 then isTrue (by rw [h]) else isFalse (by intro hc; cases hc; exact h rfl)

/-! ## Theorems -/

/-- C8: for every configuration path and log level (abstracted into the
environment of external call results), the constructor New writes the
loaded configuration through its nil named-return pointer before ever
allocating a Server value, so New never returns normally: it always panics
with a nil pointer dereference. -/
theorem new_always_nil_dereferences (env : NewEnv) :
    New env = Except.error GoPanic.nilPointerDereference := rfl

/-- C10: Save returns a nil error whenever the file at path can be
created, even when gob-encoding the object fails; its error return
reflects only the file-creation step. -/
theorem save_error_reflects_only_create (env : GobEnv) (path : String) (obj : Nat) :
    (∀ file, env.create path = Except.ok file → Save env path obj = none) ∧
    (∀ e, env.create path = Except.error e → Save env path obj = some e) := by
  constructor
  · intro file h
    simp [Save, h]
  · intro e h
    simp [Save, h]

/-- Witness for C10: a concrete environment in which file creation
succeeds and gob encoding fails, on which Save still returns no error. -/
theorem save_error_reflects_only_create_witness :
    Save encodeFailEnv "checkpoint.gob" 0 = none :=
  (save_error_reflects_only_create encodeFailEnv "checkpoint.gob" 0).1 1 rfl

/-- C5 counterexample: on the empty capability list, the hash returned by
initOwnCapabilities is not the hex-encoded SHA-256 hash of the
lexicographically sorted capability list; the source returns a hard-coded
constant instead of hashing its input. -/
theorem initOwnCapabilities_hash_differs_from_spec :
    (initOwnCapabilities []).1 ≠ specCapabilityHash [] := by decide

/-- C5 as amended: initOwnCapabilities returns as its first component a
hard-coded constant hash independent of the advertised capabilities, and
as its second component the space-joined (unsorted) capability list. -/
theorem initOwnCapabilities_returns_constant_hash (caps other : List String) :
    (initOwnCapabilities caps).1 = (initOwnCapabilities other).1 ∧
    (initOwnCapabilities caps).1 =
      "e5365a09be554ae55b855f15264dbc837b04f5831daeb321359e18cdabab5745" ∧
    (initOwnCapabilities caps).2 = String.intercalate " " caps :=
  ⟨rfl, rfl, rfl⟩

/-- C6: VerifySignature panics instead of returning false when the
algorithm is Ed25519, the public key has the matching type, but sig.Data
is not a []byte: the source converts sig.Data with an unchecked type
assertion in that branch. -/
theorem verifySignature_panics_on_ed25519_data_mismatch :
    Signature.VerifySignature trivialPrimitives
      { KeySpace := 0, Algorithm := Ed25519Alg, ValidSince := 0, ValidUntil := 0,
        Data := some (SigDataVal.bigIntSlice [1, 2]) }
      (some (PublicKeyVal.ed25519Pub 0)) "encoding" =
      Except.error GoPanic.interfaceConversion := rfl

/-- C4 counterexample: with retries=2 and backoffMilliSeconds=10 against a
peer with no cached connection whose TLS dial always fails, sendTo returns
the dial error at once: no retry happens, no Unreachable-style error is
produced, and the total sleep is 0 ms rather than at least 30 ms. -/
theorem sendTo_dial_failure_returns_at_once :
    sendTo dialFailEnv 0 2 10 = (Except.error "dial tcp: connection refused", 0) ∧
    (sendTo dialFailEnv 0 2 10).1 ≠ Except.error noRetriesError ∧
    (sendTo dialFailEnv 0 2 10).2 < 30 := by
  refine ⟨rfl, ?_, ?_⟩ <;> decide

/-- C4 as amended: the sleep-retry-double loop applies only when
connections are available (here: the cache lookup always succeeds) but no
write goes through; then sendTo sleeps backoffMilliSeconds, retries with
the backoff doubled and retries decremented, and returns the
no-retries-left error once retries reach 0, having slept
backoff * (2 ^ retries - 1) milliseconds in total.  When establishing a
connection fails, sendTo instead returns that error immediately. -/
theorem sendTo_retries_with_doubling_backoff (env : SendEnv)
    (hcache : ∀ a, (env.cachedConns a).isSome)
    (hwrite : ∀ a c, env.writeOk a c = false) :
    ∀ retries attempt backoff,
      sendTo env attempt retries backoff =
        (Except.error noRetriesError, backoff * (2 ^ retries - 1)) := by
  intro retries
  induction retries with
  | zero =>
    intro attempt backoff
    obtain ⟨cs, hcs⟩ := Option.isSome_iff_exists.mp (hcache attempt)
    simp [sendTo, availableConns, hcs, hwrite]
  | succ r ih =>
    intro attempt backoff
    obtain ⟨cs, hcs⟩ := Option.isSome_iff_exists.mp (hcache attempt)
    simp [sendTo, availableConns, hcs, hwrite, ih]
    have h1 : 1 ≤ 2 ^ r := Nat.one_le_two_pow
    obtain ⟨d, hd⟩ := Nat.exists_eq_add_of_le h1
    rw [pow_succ, hd]
    have e1 : 1 + d - 1 = d := by omega
    have e2 : (1 + d) * 2 - 1 = 1 + 2 * d := by omega
    rw [e1, e2]
    ring

/-- Witness for C4 as amended: one cached connection on which every write
fails, retries=2, backoff=10: the caller sees the no-retries-left error
after 30 ms of total sleep. -/
theorem sendTo_retries_with_doubling_backoff_witness :
    sendTo writeFailEnv 0 2 10 = (Except.error noRetriesError, 30) :=
  sendTo_retries_with_doubling_backoff writeFailEnv (fun _ => rfl) (fun _ _ => rfl) 2 0 10

/-- C2: for every signable section of a supported kind and all key and
signature validity bounds, UpdateSectionValidity sets the section's
validity window to begin at max(sigValidSince, pkeyValidSince) and to end
at min(sigValidUntil, pkeyValidUntil), both capped at now plus the
configured per-kind maximum validity. -/
theorem updateSectionValidity_sets_window (now pkeyValidSince pkeyValidUntil
    sigValidSince sigValidUntil : Int) (maxVal : MaxCacheValidity) (s : SigSection)
    (h : s.kind ≠ SigSectionKind.otherKind) :
    ∃ s2, UpdateSectionValidity now (some s) pkeyValidSince pkeyValidUntil
        sigValidSince sigValidUntil maxVal = some s2 ∧
      s2.kind = s.kind ∧
      s2.validSince =
        min (max sigValidSince pkeyValidSince) (now + maxValidityFor maxVal s.kind) ∧
      s2.validUntil =
        min (min sigValidUntil pkeyValidUntil) (now + maxValidityFor maxVal s.kind) := by
  obtain ⟨k, vs, vu⟩ := s
  cases k <;> simp only [UpdateSectionValidity, SigSection.UpdateValidity, maxValidityFor] <;>
    first
      | exact absurd rfl h
      | (split_ifs with h1 h2 <;>
          exact ⟨_, rfl, rfl, by dsimp only; omega, by dsimp only; omega⟩)

/-- Witness for C2: a concrete assertion section with concrete validity
bounds. -/
theorem updateSectionValidity_sets_window_witness :
    ∃ s2, UpdateSectionValidity 100 (some ⟨SigSectionKind.assertionKind, 0, 0⟩) 5 50 10 40
        ⟨3, 4, 5, 6, 7⟩ = some s2 ∧
      s2.kind = SigSectionKind.assertionKind ∧
      s2.validSince = min (max 10 5) (100 + maxValidityFor ⟨3, 4, 5, 6, 7⟩ SigSectionKind.assertionKind) ∧
      s2.validUntil = min (min 40 50) (100 + maxValidityFor ⟨3, 4, 5, 6, 7⟩ SigSectionKind.assertionKind) :=
  updateSectionValidity_sets_window 100 5 50 10 40 ⟨3, 4, 5, 6, 7⟩
    ⟨SigSectionKind.assertionKind, 0, 0⟩ (by decide)

/-- C1: for every signable section encoding and every keypair matching the
signature's algorithm, signing the encoding with the private key via
SignData succeeds and verifying the same encoding on the signed result
with the public key via VerifySignature returns true. -/
theorem signData_then_verifySignature (P : CryptoPrimitives) (rnd : Nat) (sig : Signature)
    (priv : PrivateKeyVal) (pub : PublicKeyVal) (encoding : String)
    (h : IsKeypair P sig.Algorithm pub priv) :
    ∃ signed, sig.SignData P rnd (some priv) encoding = Except.ok signed ∧
      signed.VerifySignature P (some pub) encoding = Except.ok true := by
  rcases h with ⟨halg, kp, ks, hpub, hpriv, hv⟩ | ⟨halg, kp, ks, hpub, hpriv, hv⟩ |
    ⟨halg, kp, ks, hpub, hpriv, hv⟩
  · subst hpub hpriv
    refine ⟨{ sig with Data := some (SigDataVal.byteSlice
      (P.ed25519Sign ks (encoding ++ sig.GetSignatureMetaData))) }, ?_, ?_⟩
    · simp [Signature.SignData, halg]
    · simp [Signature.VerifySignature, Signature.GetSignatureMetaData, halg, hv]
  · subst hpub hpriv
    obtain ⟨r, s, hsign, hver⟩ :=
      hv rnd (encoding ++ sig.GetSignatureMetaData)
    refine ⟨{ sig with Data := some (SigDataVal.bigIntSlice [r, s]) }, ?_, ?_⟩
    · simp [Signature.SignData, halg, Ed25519Alg, Ed448Alg, Ecdsa256Alg, hsign]
    · simp only [Signature.GetSignatureMetaData, halg, Ecdsa256Alg] at hver
      simp [Signature.VerifySignature, Signature.GetSignatureMetaData, halg,
        Ed25519Alg, Ed448Alg, Ecdsa256Alg, hver]
  · subst hpub hpriv
    obtain ⟨r, s, hsign, hver⟩ :=
      hv rnd (encoding ++ sig.GetSignatureMetaData)
    refine ⟨{ sig with Data := some (SigDataVal.bigIntSlice [r, s]) }, ?_, ?_⟩
    · simp [Signature.SignData, halg, Ed25519Alg, Ed448Alg, Ecdsa256Alg, Ecdsa384Alg, hsign]
    · simp only [Signature.GetSignatureMetaData, halg, Ecdsa384Alg] at hver
      simp [Signature.VerifySignature, Signature.GetSignatureMetaData, halg,
        Ed25519Alg, Ed448Alg, Ecdsa256Alg, Ecdsa384Alg, hver]

/-- Witness for C1: a concrete Ed25519 keypair under the concrete
primitives signs and verifies a concrete encoding. -/
theorem signData_then_verifySignature_witness :
    ∃ signed, Signature.SignData trivialPrimitives 0
        { KeySpace := 0, Algorithm := Ed25519Alg, ValidSince := 1, ValidUntil := 2, Data := none }
        (some (PrivateKeyVal.ed25519Priv 5)) "canonical" = Except.ok signed ∧
      signed.VerifySignature trivialPrimitives (some (PublicKeyVal.ed25519Pub 5)) "canonical" =
        Except.ok true :=
  signData_then_verifySignature trivialPrimitives 0
    { KeySpace := 0, Algorithm := Ed25519Alg, ValidSince := 1, ValidUntil := 2, Data := none }
    (PrivateKeyVal.ed25519Priv 5) (PublicKeyVal.ed25519Pub 5) "canonical"
    (Or.inl ⟨rfl, 5, 5, rfl, rfl, fun _ => rfl⟩)

/-- Transitivity of a nonpositive lexicographic comparison. -/
theorem compareKeys_le_trans : ∀ a b c : SectionKey,
    compareKeys a b ≤ 0 → compareKeys b c ≤ 0 → compareKeys a c ≤ 0
  | [], _, c, _, _ => by cases c <;> simp [compareKeys]
  | a :: as, [], _, h1, _ => by simp [compareKeys] at h1
  | a :: as, b :: bs, [], _, h2 => by simp [compareKeys] at h2
  | a :: as, b :: bs, c :: cs, h1, h2 => by
    simp only [compareKeys] at h1 h2 ⊢
    by_cases hab : a < b
    · by_cases hbc : b < c
      · simp [lt_trans hab hbc]
      · by_cases hcb : c < b
        · simp [hbc, hcb] at h2
        · have hbceq : b = c := le_antisymm (not_lt.mp hcb) (not_lt.mp hbc)
          subst hbceq
          simp [hab]
    · by_cases hba : b < a
      · simp [hab, hba] at h1
      · have habeq : a = b := le_antisymm (not_lt.mp hba) (not_lt.mp hab)
        subst habeq
        simp only [lt_irrefl, if_false] at h1
        by_cases hac : a < c
        · simp [hac]
        · by_cases hca : c < a
          · simp [hac, hca] at h2
          · simp only [hac, hca, if_false] at h2 ⊢
            exact compareKeys_le_trans as bs cs h1 h2

/-- Totality of the lexicographic comparison. -/
theorem compareKeys_le_total : ∀ a b : SectionKey,
    compareKeys a b ≤ 0 ∨ compareKeys b a ≤ 0
  | [], [] => by simp [compareKeys]
  | [], _ :: _ => by simp [compareKeys]
  | _ :: _, [] => by simp [compareKeys]
  | a :: as, b :: bs => by
    simp only [compareKeys]
    by_cases hab : a < b
    · left
      simp [hab]
    · by_cases hba : b < a
      · right
        simp [hba]
      · have h := compareKeys_le_total as bs
        simpa [hab, hba] using h

/-- Antisymmetry of the lexicographic comparison. -/
theorem compareKeys_antisymm : ∀ a b : SectionKey,
    compareKeys a b ≤ 0 → compareKeys b a ≤ 0 → a = b
  | [], [], _, _ => rfl
  | [], _ :: _, _, h2 => by simp [compareKeys] at h2
  | _ :: _, [], h1, _ => by simp [compareKeys] at h1
  | a :: as, b :: bs, h1, h2 => by
    simp only [compareKeys] at h1 h2
    by_cases hab : a < b
    · simp [hab, not_lt_of_gt hab] at h2
    · by_cases hba : b < a
      · simp [hab, hba] at h1
      · have habeq : a = b := le_antisymm (not_lt.mp hba) (not_lt.mp hab)
        subst habeq
        simp only [lt_irrefl, if_false] at h1 h2
        rw [compareKeys_antisymm as bs h1 h2]

/-- Transitivity of keyLE, the Boolean order used by the slice sorts. -/
theorem keyLE_trans (a b c : SectionKey) (h1 : keyLE a b = true) (h2 : keyLE b c = true) :
    keyLE a c = true := by
  simp only [keyLE, decide_eq_true_eq] at h1 h2 ⊢
  exact compareKeys_le_trans a b c h1 h2

/-- Totality of keyLE. -/
theorem keyLE_total (a b : SectionKey) : (keyLE a b || keyLE b a) = true := by
  simp only [keyLE, Bool.or_eq_true, decide_eq_true_eq]
  exact compareKeys_le_total a b

/-- The slice sort yields a keyLE-sorted list. -/
theorem pairwise_keyLE_mergeSort (l : List SectionKey) :
    (l.mergeSort keyLE).Pairwise (fun a b => keyLE a b = true) :=
  List.sorted_mergeSort (fun a b c => keyLE_trans a b c) (fun a b => keyLE_total a b) l

/-- A sorted key slice re-wrapped in its section constructor is sorted for
the claimed message order. -/
theorem pairwise_sortedR_bucket (c : SectionKey → MessageSection) (r : Nat)
    (hrank : ∀ k, kindRank (c k) = r) (hkey : ∀ k, secKey (c k) = k) (l : List SectionKey) :
    ((l.mergeSort keyLE).map c).Pairwise sortedR := by
  rw [List.pairwise_map]
  refine (pairwise_keyLE_mergeSort l).imp ?_
  intro a b h
  exact Or.inr ⟨by rw [hrank, hrank],
    by rw [hkey, hkey]; simpa [keyLE, decide_eq_true_eq] using h⟩

/-- Every element of a re-wrapped slice has that constructor's rank. -/
theorem rank_of_mem_bucket (c : SectionKey → MessageSection) (r : Nat)
    (hrank : ∀ k, kindRank (c k) = r) {l : List SectionKey} {x : MessageSection}
    (hx : x ∈ l.map c) : kindRank x = r := by
  obtain ⟨k, _, rfl⟩ := List.mem_map.1 hx
  exact hrank k

/-- Appending a block of strictly smaller ranks before a block of larger
ranks preserves sortedness for the claimed message order. -/
theorem pairwise_sortedR_append (r : Nat) {l1 l2 : List MessageSection}
    (h1 : l1.Pairwise sortedR) (h2 : l2.Pairwise sortedR)
    (hr1 : ∀ x ∈ l1, kindRank x < r) (hr2 : ∀ y ∈ l2, r ≤ kindRank y) :
    (l1 ++ l2).Pairwise sortedR := by
  rw [List.pairwise_append]
  exact ⟨h1, h2, fun x hx y hy => Or.inl (lt_of_lt_of_le (hr1 x hx) (hr2 y hy))⟩

/-- A rank upper bound extends over an append. -/
theorem rank_ub_append (r : Nat) {l1 l2 : List MessageSection}
    (h1 : ∀ x ∈ l1, kindRank x < r) (h2 : ∀ x ∈ l2, kindRank x < r) :
    ∀ x ∈ l1 ++ l2, kindRank x < r := by
  intro x hx
  rcases List.mem_append.1 hx with h | h
  · exact h1 x h
  · exact h2 x h

/-- The content rebuilt by sortContent is sorted for the claimed message
order: kinds in the enum sequence, CompareTo nondecreasing within a kind. -/
theorem pairwise_sortContent (content : List MessageSection) :
    (sortContent content).Pairwise sortedR := by
  simp only [sortContent]
  have p0 := pairwise_sortedR_bucket MessageSection.addressQuery 0 (fun _ => rfl) (fun _ => rfl)
    (content.filterMap getAddressQuery)
  have p1 := pairwise_sortedR_bucket MessageSection.addressZone 1 (fun _ => rfl) (fun _ => rfl)
    (content.filterMap getAddressZone)
  have p2 := pairwise_sortedR_bucket MessageSection.addressAssertion 2 (fun _ => rfl)
    (fun _ => rfl) (content.filterMap getAddressAssertion)
  have p3 := pairwise_sortedR_bucket MessageSection.assertion 3 (fun _ => rfl) (fun _ => rfl)
    (content.filterMap getAssertion)
  have p4 := pairwise_sortedR_bucket MessageSection.shard 4 (fun _ => rfl) (fun _ => rfl)
    (content.filterMap getShard)
  have p5 := pairwise_sortedR_bucket MessageSection.zone 5 (fun _ => rfl) (fun _ => rfl)
    (content.filterMap getZone)
  have p6 := pairwise_sortedR_bucket MessageSection.query 6 (fun _ => rfl) (fun _ => rfl)
    (content.filterMap getQuery)
  have p7 := pairwise_sortedR_bucket MessageSection.notification 7 (fun _ => rfl) (fun _ => rfl)
    (content.filterMap getNotification)
  have r0 : ∀ x ∈ ((content.filterMap getAddressQuery).mergeSort keyLE).map
      MessageSection.addressQuery, kindRank x = 0 := fun x hx => rank_of_mem_bucket MessageSection.addressQuery 0 (fun _ => rfl) hx
  have r1 : ∀ x ∈ ((content.filterMap getAddressZone).mergeSort keyLE).map
      MessageSection.addressZone, kindRank x = 1 := fun x hx => rank_of_mem_bucket MessageSection.addressZone 1 (fun _ => rfl) hx
  have r2 : ∀ x ∈ ((content.filterMap getAddressAssertion).mergeSort keyLE).map
      MessageSection.addressAssertion, kindRank x = 2 :=
    fun x hx => rank_of_mem_bucket MessageSection.addressAssertion 2 (fun _ => rfl) hx
  have r3 : ∀ x ∈ ((content.filterMap getAssertion).mergeSort keyLE).map
      MessageSection.assertion, kindRank x = 3 := fun x hx => rank_of_mem_bucket MessageSection.assertion 3 (fun _ => rfl) hx
  have r4 : ∀ x ∈ ((content.filterMap getShard).mergeSort keyLE).map
      MessageSection.shard, kindRank x = 4 := fun x hx => rank_of_mem_bucket MessageSection.shard 4 (fun _ => rfl) hx
  have r5 : ∀ x ∈ ((content.filterMap getZone).mergeSort keyLE).map
      MessageSection.zone, kindRank x = 5 := fun x hx => rank_of_mem_bucket MessageSection.zone 5 (fun _ => rfl) hx
  have r6 : ∀ x ∈ ((content.filterMap getQuery).mergeSort keyLE).map
      MessageSection.query, kindRank x = 6 := fun x hx => rank_of_mem_bucket MessageSection.query 6 (fun _ => rfl) hx
  have r7 : ∀ x ∈ ((content.filterMap getNotification).mergeSort keyLE).map
      MessageSection.notification, kindRank x = 7 :=
    fun x hx => rank_of_mem_bucket MessageSection.notification 7 (fun _ => rfl) hx
  have s1 := pairwise_sortedR_append 1 p0 p1
    (fun x hx => by rw [r0 x hx]; omega) (fun y hy => by rw [r1 y hy])
  have u1 := rank_ub_append 2 (fun x hx => by rw [r0 x hx]; omega)
    (fun x hx => by rw [r1 x hx]; omega)
  have s2 := pairwise_sortedR_append 2 s1 p2 u1 (fun y hy => by rw [r2 y hy])
  have u2 := rank_ub_append 3 (fun x hx => by have := u1 x hx; omega)
    (fun x hx => by rw [r2 x hx]; omega)
  have s3 := pairwise_sortedR_append 3 s2 p3 u2 (fun y hy => by rw [r3 y hy])
  have u3 := rank_ub_append 4 (fun x hx => by have := u2 x hx; omega)
    (fun x hx => by rw [r3 x hx]; omega)
  have s4 := pairwise_sortedR_append 4 s3 p4 u3 (fun y hy => by rw [r4 y hy])
  have u4 := rank_ub_append 5 (fun x hx => by have := u3 x hx; omega)
    (fun x hx => by rw [r4 x hx]; omega)
  have s5 := pairwise_sortedR_append 5 s4 p5 u4 (fun y hy => by rw [r5 y hy])
  have u5 := rank_ub_append 6 (fun x hx => by have := u4 x hx; omega)
    (fun x hx => by rw [r5 x hx]; omega)
  have s6 := pairwise_sortedR_append 6 s5 p6 u5 (fun y hy => by rw [r6 y hy])
  have u6 := rank_ub_append 7 (fun x hx => by have := u5 x hx; omega)
    (fun x hx => by rw [r6 x hx]; omega)
  exact pairwise_sortedR_append 7 s6 p7 u6 (fun y hy => by rw [r7 y hy])

/-- C3: for every message, Sort reorders the content so that sections are
grouped by kind in the exact sequence AddressQuery, AddressZone,
AddressAssertion, Assertion, Shard, Zone, Query, Notification, and within
each kind sections appear in nondecreasing order of their CompareTo
comparison: every pair of sections in the output, in order, has strictly
increasing kind rank or equal kinds with nonpositive comparison. -/
theorem sort_orders_sections (inner : SectionKey → SectionKey) (m : RainsMessage) :
    ((m.Sort inner).Content).Pairwise sortedR :=
  pairwise_sortContent (m.Content.map (sortInner inner))

/-- Every type-switch case getter characterizes its constructor. -/
theorem getter_spec_assertion : ∀ s k, getAssertion s = some k ↔ s = MessageSection.assertion k := by
  intro s k
  cases s <;> simp [getAssertion]

/-- Getter characterization for shards. -/
theorem getter_spec_shard : ∀ s k, getShard s = some k ↔ s = MessageSection.shard k := by
  intro s k
  cases s <;> simp [getShard]

/-- Getter characterization for zones. -/
theorem getter_spec_zone : ∀ s k, getZone s = some k ↔ s = MessageSection.zone k := by
  intro s k
  cases s <;> simp [getZone]

/-- Getter characterization for queries. -/
theorem getter_spec_query : ∀ s k, getQuery s = some k ↔ s = MessageSection.query k := by
  intro s k
  cases s <;> simp [getQuery]

/-- Getter characterization for notifications. -/
theorem getter_spec_notification :
    ∀ s k, getNotification s = some k ↔ s = MessageSection.notification k := by
  intro s k
  cases s <;> simp [getNotification]

/-- Getter characterization for address assertions. -/
theorem getter_spec_addressAssertion :
    ∀ s k, getAddressAssertion s = some k ↔ s = MessageSection.addressAssertion k := by
  intro s k
  cases s <;> simp [getAddressAssertion]

/-- Getter characterization for address zones. -/
theorem getter_spec_addressZone :
    ∀ s k, getAddressZone s = some k ↔ s = MessageSection.addressZone k := by
  intro s k
  cases s <;> simp [getAddressZone]

/-- Getter characterization for address queries. -/
theorem getter_spec_addressQuery :
    ∀ s k, getAddressQuery s = some k ↔ s = MessageSection.addressQuery k := by
  intro s k
  cases s <;> simp [getAddressQuery]

/-- A constructor characterized by a getter is injective. -/
theorem getter_constructor_injective (get : MessageSection → Option SectionKey)
    (c : SectionKey → MessageSection) (hgc : ∀ s k, get s = some k ↔ s = c k) :
    Function.Injective c := by
  intro k1 k2 he
  have h1 : get (c k1) = some k1 := (hgc (c k1) k1).mpr rfl
  have h2 : get (c k2) = some k2 := (hgc (c k2) k2).mpr rfl
  rw [he, h2] at h1
  exact (Option.some.inj h1).symm

/-- Counting a wrapped section in a re-wrapped type-switch slice equals
counting it in the scanned content. -/
theorem count_map_filterMap_get (get : MessageSection → Option SectionKey)
    (c : SectionKey → MessageSection) (hgc : ∀ s k, get s = some k ↔ s = c k) :
    ∀ (l : List MessageSection) (k : SectionKey),
      List.count (c k) ((l.filterMap get).map c) = List.count (c k) l
  | [], _ => by simp
  | s :: t, k => by
    have ih := count_map_filterMap_get get c hgc t k
    rcases hs : get s with _ | k2
    · have hne : s ≠ c k := by
        intro he
        have hsome : get (c k) = some k := (hgc (c k) k).mpr rfl
        rw [he, hsome] at hs
        cases hs
      rw [List.filterMap_cons_none hs, List.count_cons_of_ne (fun he => hne he.symm) t, ih]
    · have hsc : s = c k2 := (hgc s k2).mp hs
      subst hsc
      rw [List.filterMap_cons_some hs, List.map_cons, List.count_cons, List.count_cons, ih]

/-- Counting a section in one rebuilt slice of sortContent: the count in
the scanned content when the section belongs to this slice, zero
otherwise. -/
theorem count_bucket (get : MessageSection → Option SectionKey)
    (c : SectionKey → MessageSection) (hgc : ∀ s k, get s = some k ↔ s = c k)
    (content : List MessageSection) (x : MessageSection) :
    List.count x (((content.filterMap get).mergeSort keyLE).map c) =
      if (get x).isSome then List.count x content else 0 := by
  rcases hx : get x with _ | k
  · simp only [hx, Option.isSome_none, Bool.false_eq_true, if_false]
    rw [List.count_eq_zero]
    intro hmem
    obtain ⟨k2, _, hk2⟩ := List.mem_map.1 hmem
    have hsome : get x = some k2 := by
      rw [← hk2]
      exact (hgc (c k2) k2).mpr rfl
    rw [hx] at hsome
    cases hsome
  · have hxc : x = c k := (hgc x k).mp hx
    subst hxc
    simp only [hx, Option.isSome_some, if_true]
    rw [((List.mergeSort_perm (content.filterMap get) keyLE).map c).count_eq]
    exact count_map_filterMap_get get c hgc content k

/-- Counting an unsupported section in the filtered content gives zero. -/
theorem count_filter_unknown {x : MessageSection} (hx : isKnownSection x = false)
    (l : List MessageSection) : List.count x (l.filter isKnownSection) = 0 := by
  rw [List.count_eq_zero]
  intro hmem
  have := (List.mem_filter.mp hmem).2
  rw [hx] at this
  cases this

/-- The content rebuilt by sortContent is a permutation of the known
sections of the scanned content: no known section is added, dropped or
duplicated, and sections of any other type are removed. -/
theorem sortContent_perm_filter (content : List MessageSection) :
    (sortContent content).Perm (content.filter isKnownSection) := by
  rw [List.perm_iff_count]
  intro x
  simp only [sortContent, List.count_append]
  rw [count_bucket getAddressQuery MessageSection.addressQuery getter_spec_addressQuery content x,
    count_bucket getAddressZone MessageSection.addressZone getter_spec_addressZone content x,
    count_bucket getAddressAssertion MessageSection.addressAssertion
      getter_spec_addressAssertion content x,
    count_bucket getAssertion MessageSection.assertion getter_spec_assertion content x,
    count_bucket getShard MessageSection.shard getter_spec_shard content x,
    count_bucket getZone MessageSection.zone getter_spec_zone content x,
    count_bucket getQuery MessageSection.query getter_spec_query content x,
    count_bucket getNotification MessageSection.notification getter_spec_notification content x]
  cases x <;>
    simp [getAssertion, getShard, getZone, getQuery, getNotification, getAddressAssertion,
      getAddressZone, getAddressQuery, isKnownSection, count_filter_unknown,
      List.count_filter]

/-- C9: for every message whose sections are all of the eight known
variants, Sort outputs a permutation of the internally sorted input
content, and sections of any other type are silently removed: the output
content is a permutation of the input content (after the per-section
sec.Sort()) restricted to the known variants. -/
theorem sort_permutes_known_sections (inner : SectionKey → SectionKey) (m : RainsMessage) :
    ((m.Sort inner).Content).Perm ((m.Content.map (sortInner inner)).filter isKnownSection) :=
  sortContent_perm_filter (m.Content.map (sortInner inner))

/-- Mapping a function that fixes every element of a list is the
identity. -/
theorem map_fix {α : Type} (f : α → α) : ∀ {l : List α}, (∀ x ∈ l, f x = x) → l.map f = l
  | [], _ => rfl
  | a :: t, h => by
    rw [List.map_cons, h a (by simp), map_fix f (fun x hx => h x (by simp [hx]))]

/-- A section that is not of a known variant is the unsupported variant. -/
theorem unknown_is_unsupported {s : MessageSection} (h : isKnownSection s = false) :
    ∃ k, s = MessageSection.unsupported k := by
  cases s <;> first
    | exact ⟨_, rfl⟩
    | simp [isKnownSection] at h

/-- Restricting the scanned content to known sections does not change any
type-switch slice, because every getter ignores unsupported sections. -/
theorem filterMap_known (get : MessageSection → Option SectionKey)
    (hnone : ∀ s, isKnownSection s = false → get s = none) :
    ∀ l : List MessageSection, (l.filter isKnownSection).filterMap get = l.filterMap get
  | [] => rfl
  | s :: t => by
    have ih := filterMap_known get hnone t
    by_cases hk : isKnownSection s
    · rw [List.filter_cons_of_pos hk]
      rcases hs : get s with _ | k
      · rw [List.filterMap_cons_none hs, List.filterMap_cons_none hs, ih]
      · rw [List.filterMap_cons_some hs, List.filterMap_cons_some hs, ih]
    · rw [List.filter_cons_of_neg hk,
        List.filterMap_cons_none (hnone s (Bool.not_eq_true _ ▸ hk)), ih]

/-- The slice sort maps permutations of its input to one common output:
keyLE is total, transitive and antisymmetric. -/
theorem mergeSort_eq_of_perm {l1 l2 : List SectionKey} (h : l1.Perm l2) :
    l1.mergeSort keyLE = l2.mergeSort keyLE := by
  haveI : IsAntisymm SectionKey (fun a b => keyLE a b = true) := ⟨fun a b h1 h2 => by
    simp only [keyLE, decide_eq_true_eq] at h1 h2
    exact compareKeys_antisymm a b h1 h2⟩
  exact List.eq_of_perm_of_sorted
    (((List.mergeSort_perm l1 keyLE).trans h).trans (List.mergeSort_perm l2 keyLE).symm)
    (pairwise_keyLE_mergeSort l1) (pairwise_keyLE_mergeSort l2)

/-- The content rebuilt by sortContent depends only on the multiset of
known sections of the scanned content. -/
theorem sortContent_eq_of_perm {l1 l2 : List MessageSection}
    (h : (l1.filter isKnownSection).Perm (l2.filter isKnownSection)) :
    sortContent l1 = sortContent l2 := by
  have hbucket : ∀ get : MessageSection → Option SectionKey,
      (∀ s, isKnownSection s = false → get s = none) →
      (l1.filterMap get).mergeSort keyLE = (l2.filterMap get).mergeSort keyLE := by
    intro get hnone
    apply mergeSort_eq_of_perm
    rw [← filterMap_known get hnone l1, ← filterMap_known get hnone l2]
    exact h.filterMap get
  simp only [sortContent]
  rw [hbucket getAssertion (fun s h => by obtain ⟨k, rfl⟩ := unknown_is_unsupported h; rfl),
    hbucket getShard (fun s h => by obtain ⟨k, rfl⟩ := unknown_is_unsupported h; rfl),
    hbucket getZone (fun s h => by obtain ⟨k, rfl⟩ := unknown_is_unsupported h; rfl),
    hbucket getQuery (fun s h => by obtain ⟨k, rfl⟩ := unknown_is_unsupported h; rfl),
    hbucket getNotification (fun s h => by obtain ⟨k, rfl⟩ := unknown_is_unsupported h; rfl),
    hbucket getAddressAssertion (fun s h => by obtain ⟨k, rfl⟩ := unknown_is_unsupported h; rfl),
    hbucket getAddressZone (fun s h => by obtain ⟨k, rfl⟩ := unknown_is_unsupported h; rfl),
    hbucket getAddressQuery (fun s h => by obtain ⟨k, rfl⟩ := unknown_is_unsupported h; rfl)]

/-- Rebuilding already rebuilt content changes nothing. -/
theorem sortContent_idem (l : List MessageSection) :
    sortContent (sortContent l) = sortContent l := by
  apply sortContent_eq_of_perm
  have h1 : (sortContent l).filter isKnownSection = sortContent l := by
    rw [List.filter_eq_self]
    intro x hx
    have hx2 := (sortContent_perm_filter l).mem_iff.mp hx
    exact (List.mem_filter.mp hx2).2
  rw [h1]
  exact sortContent_perm_filter l

/-- C7: for every message on which Sort has already been applied, applying
Sort again leaves the content unchanged, provided the per-section
sec.Sort() is itself idempotent (as the specification requires of
re-sorting). -/
theorem sort_idempotent (inner : SectionKey → SectionKey)
    (hinner : ∀ k, inner (inner k) = inner k) (m : RainsMessage) :
    (m.Sort inner).Sort inner = m.Sort inner := by
  have hsi : ∀ s, sortInner inner (sortInner inner s) = sortInner inner s := by
    intro s
    cases s <;> simp [sortInner, hinner]
  have hfix : ∀ x ∈ sortContent (m.Content.map (sortInner inner)), sortInner inner x = x := by
    intro x hx
    have hx2 := (sortContent_perm_filter (m.Content.map (sortInner inner))).mem_iff.mp hx
    have hx3 := (List.mem_filter.mp hx2).1
    obtain ⟨s0, _, rfl⟩ := List.mem_map.1 hx3
    exact hsi s0
  simp only [RainsMessage.Sort, map_fix (sortInner inner) hfix,
    sortContent_idem]

/-- Witness for C7: sorting a concrete message twice with the identity
inner sort equals sorting it once. -/
theorem sort_idempotent_witness :
    (exampleMessage.Sort id).Sort id = exampleMessage.Sort id :=
  sort_idempotent id (fun _ => rfl) exampleMessage

end Rains
